import Mathlib

/-!
Verification of the github-agent backend: the URL deduplicator, the
gh-CLI search client with its fail-soft error policy, the multi-keyword
orchestration inside the chat route, and the HTTP route handlers.

The embedding follows the JavaScript sources in
`src/server/routes/chat.js` and `src/server/services/github.js`.
External effects (the `gh` process, the two language-model calls) are
modelled as explicit environment functions; every outcome a `try/catch`
in the source can observe is a constructor of an outcome type.
-/

namespace GithubAgent

/-- One search result record.  The source treats records as untyped JSON
objects and only ever reads the `url` field (in `deduplicateByUrl`);
`url = none` models a record whose `url` property is absent or
`undefined`.  All remaining properties (title, body, repository, sha,
path, ...) are carried opaquely as a key/value list. -/
structure SearchRecord where
  url : Option String
  fields : List (String × String)
deriving DecidableEq, Repr

/-- Loop of `deduplicateByUrl` (chat.js lines 126-135).  The source
filters with a stateful closure over `seen : Set`; here `seen` is the
explicit list of url keys added so far.  `Set.has`/`Set.add` use
SameValueZero equality, under which all absent/`undefined` urls are one
key, matching equality on `Option String`. -/
def dedupGo (seen : List (Option String)) : List SearchRecord → List SearchRecord
  | [] => []
  | x :: xs =>
    if x.url ∈ seen then dedupGo seen xs
    else x :: dedupGo (x.url :: seen) xs

/-- `deduplicateByUrl` of chat.js: keep a record iff its `url` has not
been seen earlier in the list. -/
def deduplicateByUrl (items : List SearchRecord) : List SearchRecord :=
  dedupGo [] items

/-- Specification-level description of first-occurrence-wins
deduplication, written from the spec text: keep the head, drop every
later record sharing its `url`, recurse. -/
def keepFirstByUrl : List SearchRecord → List SearchRecord
  | [] => []
  | x :: xs => x :: keepFirstByUrl (xs.filter (fun y => y.url ≠ x.url))
termination_by l => l.length
decreasing_by
  simp only [List.length_cons]
  exact Nat.lt_succ_of_le (List.length_filter_le _ _)

theorem dedupGo_eq_keepFirst (l : List SearchRecord) :
    ∀ seen, dedupGo seen l = keepFirstByUrl (l.filter (fun y => y.url ∉ seen)) := by
  induction l with
  | nil => intro seen; simp [dedupGo, keepFirstByUrl]
  | cons x xs ih =>
    intro seen
    by_cases h : x.url ∈ seen
    · rw [dedupGo]
      simp only [if_pos h, List.filter_cons, decide_eq_true_eq]
      rw [if_neg (by simp [h])]
      exact ih seen
    · rw [dedupGo]
      simp only [if_neg h, List.filter_cons]
      rw [if_pos (by simp [h])]
      rw [keepFirstByUrl]
      rw [ih (x.url :: seen), List.filter_filter]
      congr 2
      apply List.filter_congr
      intro a _
      by_cases ha : a.url = x.url <;> by_cases hs : a.url ∈ seen <;>
        simp [ha, hs]

theorem deduplicateByUrl_eq_keepFirst (l : List SearchRecord) :
    deduplicateByUrl l = keepFirstByUrl l := by
  rw [deduplicateByUrl, dedupGo_eq_keepFirst]
  congr 1
  apply List.filter_eq_self.mpr
  intro a _
  simp

theorem dedupGo_pairwise (l : List SearchRecord) :
    ∀ seen, (∀ y ∈ dedupGo seen l, y.url ∉ seen) ∧
      List.Pairwise (fun a b => a.url ≠ b.url) (dedupGo seen l) := by
  induction l with
  | nil => intro seen; simp [dedupGo]
  | cons x xs ih =>
    intro seen
    by_cases h : x.url ∈ seen
    · rw [dedupGo]; simp only [if_pos h]; exact ih seen
    · rw [dedupGo]
      simp only [if_neg h]
      obtain ⟨hmem, hpw⟩ := ih (x.url :: seen)
      refine ⟨?_, ?_⟩
      · intro y hy
        rcases List.mem_cons.mp hy with rfl | hy'
        · exact h
        · intro hc
          exact (hmem y hy') (List.mem_cons_of_mem _ hc)
      · refine List.pairwise_cons.mpr ⟨?_, hpw⟩
        intro y hy hc
        exact (hmem y hy) (by simp [hc])

theorem deduplicateByUrl_pairwise (l : List SearchRecord) :
    List.Pairwise (fun a b => a.url ≠ b.url) (deduplicateByUrl l) :=
  (dedupGo_pairwise l []).2

theorem dedupGo_of_pairwise (l : List SearchRecord) :
    ∀ seen, List.Pairwise (fun a b => a.url ≠ b.url) l →
      (∀ y ∈ l, y.url ∉ seen) → dedupGo seen l = l := by
  induction l with
  | nil => intro seen _ _; rfl
  | cons x xs ih =>
    intro seen hpw hs
    rw [dedupGo]
    rw [if_neg (hs x (List.mem_cons_self x xs))]
    obtain ⟨hhead, htail⟩ := List.pairwise_cons.mp hpw
    congr 1
    apply ih _ htail
    intro y hy
    intro hc
    rcases List.mem_cons.mp hc with heq | hmem
    · exact hhead y hy heq.symm
    · exact hs y (List.mem_cons_of_mem _ hy) hmem

/-- Outcome of one `gh` CLI invocation, as observable through the
`try/catch` in `ghCommand` (github.js lines 8-20).  `procError` models
`execSync` throwing (spawn failure or non-zero exit status);
`parseError` models `JSON.parse` throwing on output that is not valid
JSON; `parsedNull` models output that parses to a falsy JSON value such
as `null` (which the `x || []` guard in each search function maps to the
empty list); `parsed` models output that parses to an array of
records. -/
inductive GhResult where
  | procError (msg : String)
  | parseError (raw : String)
  | parsedNull
  | parsed (records : List SearchRecord)
deriving DecidableEq, Repr

/-- Failure modes of a `gh` invocation that the fail-soft policy turns
into an empty result: process error or non-zero exit (`procError`),
parse failure on malformed output (`parseError`), or a falsy parsed
value (`parsedNull`). -/
def GhResult.failsSoft : GhResult → Bool
  | .procError _ => true
  | .parseError _ => true
  | .parsedNull => true
  | .parsed _ => false

/-- The external `gh` process: each command string yields one outcome. -/
def GhEnv : Type := String → GhResult

/-- `ghCommand` of github.js: run `gh`, parse the output as JSON; any
throw is caught and becomes `null` (here `none`); a successful parse
returns the parsed value (`some none` for a falsy value such as JSON
`null`, `some (some rs)` for an array of records). -/
def ghCommand (r : GhResult) : Option (Option (List SearchRecord)) :=
  match r with
  | .procError _ => none
  | .parseError _ => none
  | .parsedNull => some none
  | .parsed rs => some (some rs)

/-- The `x || []` guard each search function applies to `ghCommand`'s
result: `null` (failure) and falsy parsed values give the empty list. -/
def orEmptyList (r : Option (Option (List SearchRecord))) : List SearchRecord :=
  match r with
  | none => []
  | some none => []
  | some (some rs) => rs

/-- Command string built by `searchIssues`. -/
def issuesCmd (org q : String) (lim : Nat) : String :=
  "search issues \"" ++ q ++ " org:" ++ org ++
    "\" --json title,body,url,repository,state,createdAt,author --limit " ++ toString lim

/-- Command string built by `searchPullRequests`. -/
def prsCmd (org q : String) (lim : Nat) : String :=
  "search prs \"" ++ q ++ " org:" ++ org ++
    "\" --json title,body,url,repository,state,createdAt,author --limit " ++ toString lim

/-- Command string built by `searchCode`. -/
def codeCmd (org q : String) (lim : Nat) : String :=
  "search code \"" ++ q ++ " org:" ++ org ++
    "\" --json path,repository,url --limit " ++ toString lim

/-- Command string built by `searchCommits`. -/
def commitsCmd (org q : String) (lim : Nat) : String :=
  "search commits \"" ++ q ++ " org:" ++ org ++
    "\" --json sha,commit,repository,url --limit " ++ toString lim

/-- Command string built by `listRepos`. -/
def repoListCmd (org : String) : String :=
  "repo list " ++ org ++ " --json name,description,url,updatedAt --limit 100"

/-- `searchIssues` of github.js: scope the query to the organization,
run `gh search issues`, fail soft to the empty list. -/
def searchIssues (env : GhEnv) (org q : String) (lim : Nat) : List SearchRecord :=
  orEmptyList (ghCommand (env (issuesCmd org q lim)))

/-- `searchPullRequests` of github.js. -/
def searchPullRequests (env : GhEnv) (org q : String) (lim : Nat) : List SearchRecord :=
  orEmptyList (ghCommand (env (prsCmd org q lim)))

/-- `searchCode` of github.js. -/
def searchCode (env : GhEnv) (org q : String) (lim : Nat) : List SearchRecord :=
  orEmptyList (ghCommand (env (codeCmd org q lim)))

/-- `searchCommits` of github.js. -/
def searchCommits (env : GhEnv) (org q : String) (lim : Nat) : List SearchRecord :=
  orEmptyList (ghCommand (env (commitsCmd org q lim)))

/-- `listRepos` of github.js: `gh repo list`, fail soft to `[]`. -/
def listRepos (env : GhEnv) (org : String) : List SearchRecord :=
  orEmptyList (ghCommand (env (repoListCmd org)))

/-- The four category lists of a ResultBundle. -/
structure Bundle where
  issues : List SearchRecord
  pullRequests : List SearchRecord
  code : List SearchRecord
  commits : List SearchRecord
deriving DecidableEq, Repr

/-- The summary counts of a ResultBundle. -/
structure Summary where
  issuesFound : Nat
  prsFound : Nat
  codeFilesFound : Nat
  commitsFound : Nat
deriving DecidableEq, Repr

/-- `comprehensiveSearch` of github.js, instrumented with the list of
`gh` command strings it passes to the environment (exactly one per
category search, in the order the four searches are written).  The four
searches use the fixed limits 10, 10, 10 and 5; the summary counts are
the lengths of the four lists. -/
def comprehensiveSearchT (env : GhEnv) (org q : String) :
    (Bundle × Summary) × List String :=
  ((⟨searchIssues env org q 10, searchPullRequests env org q 10,
     searchCode env org q 10, searchCommits env org q 5⟩,
    ⟨(searchIssues env org q 10).length, (searchPullRequests env org q 10).length,
     (searchCode env org q 10).length, (searchCommits env org q 5).length⟩),
   [issuesCmd org q 10, prsCmd org q 10, codeCmd org q 10, commitsCmd org q 5])

/-- `comprehensiveSearch` without the instrumentation. -/
def comprehensiveSearch (env : GhEnv) (org q : String) : Bundle × Summary :=
  (comprehensiveSearchT env org q).1

/-- One iteration of the keyword loop in `POST /api/chat` (chat.js lines
37-43): run `comprehensiveSearch` for the keyword and append its four
category lists onto the accumulators, extending the call trace. -/
def orchestrateStep (env : GhEnv) (org : String)
    (acc : Bundle × List String) (kw : String) : Bundle × List String :=
  match comprehensiveSearchT env org kw with
  | (r, log) =>
    (⟨acc.1.issues ++ r.1.issues, acc.1.pullRequests ++ r.1.pullRequests,
      acc.1.code ++ r.1.code, acc.1.commits ++ r.1.commits⟩,
     acc.2 ++ log)

/-- The multi-keyword orchestration of `POST /api/chat` (chat.js lines
30-56): sequentially accumulate the per-keyword results, deduplicate
each category list by url, recompute the summary from the deduplicated
lengths.  The second component is the trace of `gh` command strings
passed to the search client. -/
def orchestrateT (env : GhEnv) (org : String) (keywords : List String) :
    (Bundle × Summary) × List String :=
  match keywords.foldl (orchestrateStep env org) (⟨[], [], [], []⟩, []) with
  | (acc, log) =>
    let d : Bundle := ⟨deduplicateByUrl acc.issues, deduplicateByUrl acc.pullRequests,
      deduplicateByUrl acc.code, deduplicateByUrl acc.commits⟩
    ((d, ⟨d.issues.length, d.pullRequests.length, d.code.length, d.commits.length⟩), log)

/-- JavaScript truthiness of an optional request-body string: absent
(`undefined`) and the empty string are falsy. -/
def jsTruthy (s : Option String) : Bool :=
  match s with
  | none => false
  | some s => s ≠ ""

/-- Recognizer for one list of characters starting another. -/
def listStartsWith : List Char → List Char → Bool
  | [], _ => true
  | _ :: _, [] => false
  | a :: as, b :: bs => a == b && listStartsWith as bs

/-- Recognizer for one list of characters occurring inside another. -/
def listOccursIn (needle : List Char) : List Char → Bool
  | [] => listStartsWith needle []
  | b :: bs => listStartsWith needle (b :: bs) || listOccursIn needle bs

/-- `String.prototype.includes` of JavaScript: substring test. -/
def jsIncludes (s sub : String) : Bool :=
  listOccursIn sub.toList s.toList

/-- The check in the chat route's catch block (chat.js line 73): the
error counts as an authentication failure iff its message contains
"401" or "authentication". -/
def isAuthError (msg : String) : Bool :=
  jsIncludes msg "401" || jsIncludes msg "authentication"

/-- Response of `POST /api/chat`. -/
inductive ChatResponse where
  | badRequest (error : String)
  | unauthorized (error : String)
  | serverError (error : String)
  | ok (response : String) (searchSummary : Summary) (keywords : List String)
deriving DecidableEq, Repr

/-- HTTP status code of a chat response. -/
def ChatResponse.status : ChatResponse → Nat
  | .badRequest _ => 400
  | .unauthorized _ => 401
  | .serverError _ => 500
  | .ok _ _ _ => 200

/-- The catch block of the chat route (chat.js lines 69-78): an error
whose message contains "401" or "authentication" yields 401 with the
invalid-key body, anything else yields 500 with the generic body. -/
def classifyChatError (msg : String) : ChatResponse :=
  if isAuthError msg then
    .unauthorized "Invalid API key. Please check your Anthropic API key."
  else
    .serverError "An error occurred processing your request. Please try again."

/-- Request body of `POST /api/chat`; `none` models an absent field. -/
structure ChatBody where
  message : Option String
  apiKey : Option String
  systemPrompt : Option String
deriving DecidableEq, Repr

/-- One call to an external collaborator made while handling a chat
request: a keyword-extraction call, a `gh` search invocation (carrying
its command string), or an answer-synthesis call. -/
inductive Call where
  | llmExtract (message : String)
  | ghSearch (cmd : String)
  | llmGenerate (message : String)
deriving DecidableEq, Repr

/-- The keyword extractor: given api key and message it either returns a
keyword list or throws an error with a message. -/
def ExtractFn : Type := String → String → Except String (List String)

/-- The answer synthesizer: given api key, message, result bundle and
optional system prompt it either returns the answer text or throws. -/
def GenerateFn : Type := String → String → Bundle → Option String → Except String String

/-- The `POST /api/chat` handler (chat.js lines 10-79), paired with the
trace of external calls it makes.  Validation rejects a falsy `message`
then a falsy `apiKey` with 400; then the keyword extractor runs, the
orchestration loop searches per keyword, and the synthesizer produces
the answer; an error thrown by either collaborator is classified by the
catch block. -/
def chatHandler (llmE : ExtractFn) (llmG : GenerateFn) (env : GhEnv)
    (org : String) (body : ChatBody) : ChatResponse × List Call :=
  if ¬ jsTruthy body.message then
    (.badRequest "Message is required", [])
  else if ¬ jsTruthy body.apiKey then
    (.badRequest "API key is required. Please enter your Anthropic API key in settings.", [])
  else
    let message := body.message.getD ""
    let apiKey := body.apiKey.getD ""
    match llmE apiKey message with
    | .error e => (classifyChatError e, [.llmExtract message])
    | .ok keywords =>
      match orchestrateT env org keywords with
      | ((bundle, summary), ghLog) =>
        match llmG apiKey message bundle body.systemPrompt with
        | .error e =>
          (classifyChatError e,
           .llmExtract message :: (ghLog.map .ghSearch ++ [.llmGenerate message]))
        | .ok resp =>
          (.ok resp summary keywords,
           .llmExtract message :: (ghLog.map .ghSearch ++ [.llmGenerate message]))

/-- Response of `POST /api/search`. -/
inductive SearchResponse where
  | badRequest (error : String)
  | ok (bundle : Bundle) (summary : Summary)
  | serverError (error : String)
deriving DecidableEq, Repr

/-- The `POST /api/search` handler (chat.js lines 107-121): a falsy
`query` is rejected with 400, otherwise the result of
`comprehensiveSearch` is returned as-is.  `comprehensiveSearch` is total
(every `gh` failure is absorbed inside the search client), so the catch
branch producing 500 is not reachable from it. -/
def searchRoute (env : GhEnv) (org : String) (query : Option String) : SearchResponse :=
  if ¬ jsTruthy query then .badRequest "Query is required"
  else
    match comprehensiveSearch env org (query.getD "") with
    | (b, s) => .ok b s

/-- Response of `GET /api/repos`. -/
inductive ReposResponse where
  | ok (repos : List SearchRecord) (org : String)
  | serverError (error : String)
deriving DecidableEq, Repr

/-- The `GET /api/repos` handler (chat.js lines 93-101): respond with
the repo list and the organization name.  `listRepos` absorbs every
`gh` failure into `[]` and never throws, so the catch branch producing
500 `Failed to list repositories` is not reachable from it. -/
def reposRoute (env : GhEnv) (org : String) : ReposResponse :=
  .ok (listRepos env org) org

/-- A `gh` outcome with soft failure maps to the empty list after
`ghCommand` and the `|| []` guard. -/
theorem orEmpty_of_failsSoft (r : GhResult) (h : r.failsSoft = true) :
    orEmptyList (ghCommand r) = [] := by
  cases r <;> simp_all [GhResult.failsSoft, ghCommand, orEmptyList]

theorem classify_unauthorized_iff (e : String) :
    (classifyChatError e =
      ChatResponse.unauthorized "Invalid API key. Please check your Anthropic API key.") ↔
      isAuthError e = true := by
  unfold classifyChatError
  by_cases h : isAuthError e <;> simp [h]

theorem classify_of_not_auth (e : String) (h : isAuthError e = false) :
    classifyChatError e =
      ChatResponse.serverError "An error occurred processing your request. Please try again." := by
  simp [classifyChatError, h]

theorem classify_status_ne_200 (e : String) : (classifyChatError e).status ≠ 200 := by
  unfold classifyChatError
  by_cases h : isAuthError e <;> simp [h, ChatResponse.status]

/-- A `gh` environment in which every invocation fails at the process
level. -/
def failEnv : GhEnv := fun _ => .procError "spawn gh ENOENT"

/-- A record with url "a". -/
def recA : SearchRecord := ⟨some "a", []⟩

/-- A record with url "b". -/
def recB : SearchRecord := ⟨some "b", []⟩

/-- A record with url "c". -/
def recC : SearchRecord := ⟨some "c", []⟩

/-- A `gh` environment in which every invocation succeeds and returns
the same two records sharing url "a". -/
def dupEnv : GhEnv := fun _ => .parsed [recA, recA]

/-- A keyword extractor that always fails with an authentication-style
error message. -/
def authFailExtract : ExtractFn := fun _ _ =>
  .error "401 authentication_error: invalid x-api-key"

/-- A keyword extractor that always returns one keyword. -/
def okExtract : ExtractFn := fun _ _ => .ok ["memory leak"]

/-- An answer synthesizer that always succeeds. -/
def okGenerate : GenerateFn := fun _ _ _ _ => .ok "Here is what I found."

/-- A chat request body with message and api key both present. -/
def chatBodyEx : ChatBody := ⟨some "why is it failing", some "sk-ant-key", none⟩

/-- The mutable store of a heap-allocated array world: a reference is an
index into the store.  `Array.prototype.filter`, which
`deduplicateByUrl` uses, allocates a fresh array and leaves its receiver
untouched, so a call appends one new array to the store and returns its
reference. -/
abbrev Store : Type := List (List SearchRecord)

/-- Calling `deduplicateByUrl` on the array at reference `r`: the store
gains one freshly allocated result array; no existing cell changes. -/
def dedupeCall (σ : Store) (r : Nat) : Store × Nat :=
  (σ ++ [deduplicateByUrl (σ.getD r [])], σ.length)

/-- C1: `deduplicateByUrl` keeps exactly the first occurrence of each
`url` key, preserving order — it agrees with the spec-level
`keepFirstByUrl` on every input; the spec's example evaluates to
`[a, b, c]`; and two records with absent `url` share the single
undefined key, so the second is dropped. -/
theorem dedupe_keeps_first_occurrences :
    (∀ items, deduplicateByUrl items = keepFirstByUrl items) ∧
    deduplicateByUrl [⟨some "a", []⟩, ⟨some "b", []⟩, ⟨some "a", []⟩,
        ⟨some "c", []⟩, ⟨some "b", []⟩] =
      [⟨some "a", []⟩, ⟨some "b", []⟩, ⟨some "c", []⟩] ∧
    deduplicateByUrl [⟨none, [("title", "x")]⟩, ⟨none, [("title", "y")]⟩] =
      [⟨none, [("title", "x")]⟩] :=
  ⟨deduplicateByUrl_eq_keepFirst, by decide, by decide⟩

/-- C2: after the per-category deduplication step of the chat route's
orchestration, no two records of any one of the four category lists
share a `url`. -/
theorem orchestrate_category_urls_distinct :
    ∀ (env : GhEnv) (org : String) (keywords : List String),
      List.Pairwise (fun a b => a.url ≠ b.url) (orchestrateT env org keywords).1.1.issues ∧
      List.Pairwise (fun a b => a.url ≠ b.url) (orchestrateT env org keywords).1.1.pullRequests ∧
      List.Pairwise (fun a b => a.url ≠ b.url) (orchestrateT env org keywords).1.1.code ∧
      List.Pairwise (fun a b => a.url ≠ b.url) (orchestrateT env org keywords).1.1.commits := by
  intro env org keywords
  exact ⟨deduplicateByUrl_pairwise _, deduplicateByUrl_pairwise _,
    deduplicateByUrl_pairwise _, deduplicateByUrl_pairwise _⟩

/-- C3: `deduplicateByUrl` is idempotent — applied to its own output it
returns that output unchanged. -/
theorem dedupe_idempotent :
    ∀ items, deduplicateByUrl (deduplicateByUrl items) = deduplicateByUrl items := by
  intro items
  exact dedupGo_of_pairwise _ [] (deduplicateByUrl_pairwise items)
    (fun y _ => List.not_mem_nil _)

/-- C4: each category search returns the empty list whenever its
underlying `gh` invocation fails in any way (process error, non-zero
exit, parse failure, falsy parsed value) — it never raises. -/
theorem search_functions_fail_soft :
    ∀ (env : GhEnv) (org q : String) (lim : Nat),
      ((env (issuesCmd org q lim)).failsSoft = true →
        searchIssues env org q lim = []) ∧
      ((env (prsCmd org q lim)).failsSoft = true →
        searchPullRequests env org q lim = []) ∧
      ((env (codeCmd org q lim)).failsSoft = true →
        searchCode env org q lim = []) ∧
      ((env (commitsCmd org q lim)).failsSoft = true →
        searchCommits env org q lim = []) := by
  intro env org q lim
  exact ⟨fun h => orEmpty_of_failsSoft _ h, fun h => orEmpty_of_failsSoft _ h,
    fun h => orEmpty_of_failsSoft _ h, fun h => orEmpty_of_failsSoft _ h⟩

theorem search_functions_fail_soft_witness :
    ((failEnv (issuesCmd "brandnewbox" "memory leak" 10)).failsSoft = true ∧
      searchIssues failEnv "brandnewbox" "memory leak" 10 = []) ∧
    ((failEnv (prsCmd "brandnewbox" "memory leak" 10)).failsSoft = true ∧
      searchPullRequests failEnv "brandnewbox" "memory leak" 10 = []) ∧
    ((failEnv (codeCmd "brandnewbox" "memory leak" 10)).failsSoft = true ∧
      searchCode failEnv "brandnewbox" "memory leak" 10 = []) ∧
    ((failEnv (commitsCmd "brandnewbox" "memory leak" 5)).failsSoft = true ∧
      searchCommits failEnv "brandnewbox" "memory leak" 5 = []) := by
  obtain ⟨h1, h2, h3, h4⟩ :=
    search_functions_fail_soft failEnv "brandnewbox" "memory leak" 10
  obtain ⟨_, _, _, h4'⟩ :=
    search_functions_fail_soft failEnv "brandnewbox" "memory leak" 5
  exact ⟨⟨rfl, h1 rfl⟩, ⟨rfl, h2 rfl⟩, ⟨rfl, h3 rfl⟩, ⟨rfl, h4' rfl⟩⟩

/-- C5, counterexample: with a stub search client returning the same
record twice, `POST /api/search` responds with the duplicate still
present and summary count 2, while the deduplicated client result has
one element — the route does not deduplicate. -/
theorem searchRoute_counterexample :
    searchRoute dupEnv "brandnewbox" (some "memory leak") =
      SearchResponse.ok ⟨[recA, recA], [recA, recA], [recA, recA], [recA, recA]⟩
        ⟨2, 2, 2, 2⟩ ∧
    deduplicateByUrl [recA, recA] = [recA] ∧
    ([recA, recA] : List SearchRecord) ≠ deduplicateByUrl [recA, recA] := by
  refine ⟨rfl, by decide, by decide⟩

/-- C5, amended: for a present (truthy) `query`, `POST /api/search`
responds 200 with exactly the search client's category lists as
returned — no deduplication is applied on this path — and summary
counts equal to the lengths of those returned lists. -/
theorem searchRoute_returns_raw_results :
    ∀ (env : GhEnv) (org q : String), jsTruthy (some q) = true →
      searchRoute env org (some q) =
        SearchResponse.ok (comprehensiveSearch env org q).1
          (comprehensiveSearch env org q).2 ∧
      (comprehensiveSearch env org q).2 =
        ⟨(comprehensiveSearch env org q).1.issues.length,
         (comprehensiveSearch env org q).1.pullRequests.length,
         (comprehensiveSearch env org q).1.code.length,
         (comprehensiveSearch env org q).1.commits.length⟩ := by
  intro env org q h
  refine ⟨?_, rfl⟩
  simp [searchRoute, h]

theorem searchRoute_returns_raw_results_witness :
    jsTruthy (some "memory leak") = true ∧
    searchRoute failEnv "brandnewbox" (some "memory leak") =
      SearchResponse.ok ⟨[], [], [], []⟩ ⟨0, 0, 0, 0⟩ := by
  refine ⟨by decide, ?_⟩
  rw [(searchRoute_returns_raw_results failEnv "brandnewbox" "memory leak" (by decide)).1]
  rfl

/-- C6: an error thrown by the keyword extractor or the answer
synthesizer is classified by the chat route's catch block: the response
is 401 with the invalid-key body exactly when the error message marks
an authentication failure (contains "401" or "authentication"),
otherwise 500 with the generic body, and never 200. -/
theorem chat_error_classification :
    ∀ (llmE : ExtractFn) (llmG : GenerateFn) (env : GhEnv) (org : String)
      (body : ChatBody) (e : String),
      jsTruthy body.message = true → jsTruthy body.apiKey = true →
      (llmE (body.apiKey.getD "") (body.message.getD "") = .error e ∨
        (∃ kws, llmE (body.apiKey.getD "") (body.message.getD "") = .ok kws ∧
          llmG (body.apiKey.getD "") (body.message.getD "")
            (orchestrateT env org kws).1.1 body.systemPrompt = .error e)) →
      (chatHandler llmE llmG env org body).1 = classifyChatError e ∧
      (((chatHandler llmE llmG env org body).1 =
          ChatResponse.unauthorized "Invalid API key. Please check your Anthropic API key.") ↔
        isAuthError e = true) ∧
      (isAuthError e = false →
        (chatHandler llmE llmG env org body).1 =
          ChatResponse.serverError
            "An error occurred processing your request. Please try again.") ∧
      (chatHandler llmE llmG env org body).1.status ≠ 200 := by
  intro llmE llmG env org body e hm hk hthrow
  have hmain : (chatHandler llmE llmG env org body).1 = classifyChatError e := by
    rcases hthrow with he | ⟨kws, hok, hgen⟩
    · simp [chatHandler, hm, hk, he]
    · simp [chatHandler, hm, hk, hok, hgen]
  refine ⟨hmain, ?_, ?_, ?_⟩
  · rw [hmain]; exact classify_unauthorized_iff e
  · intro h; rw [hmain]; exact classify_of_not_auth e h
  · rw [hmain]; exact classify_status_ne_200 e

theorem chat_error_classification_witness :
    jsTruthy chatBodyEx.message = true ∧ jsTruthy chatBodyEx.apiKey = true ∧
    (chatHandler authFailExtract okGenerate failEnv "brandnewbox" chatBodyEx).1 =
      ChatResponse.unauthorized "Invalid API key. Please check your Anthropic API key." := by
  have h := chat_error_classification authFailExtract okGenerate failEnv "brandnewbox"
    chatBodyEx "401 authentication_error: invalid x-api-key" (by decide) (by decide)
    (Or.inl rfl)
  exact ⟨by decide, by decide, h.2.1.mpr (by decide)⟩

/-- C7: a chat request with a truthy `message` and no `apiKey` is
rejected with 400 and the api-key body, and no external call (keyword
extraction, search, synthesis) is made. -/
theorem chat_missing_apiKey :
    ∀ (llmE : ExtractFn) (llmG : GenerateFn) (env : GhEnv) (org : String)
      (body : ChatBody),
      jsTruthy body.message = true → body.apiKey = none →
      chatHandler llmE llmG env org body =
        (ChatResponse.badRequest
          "API key is required. Please enter your Anthropic API key in settings.", []) ∧
      (chatHandler llmE llmG env org body).1.status = 400 := by
  intro llmE llmG env org body hm hk
  have hk' : jsTruthy body.apiKey = false := by rw [hk]; rfl
  have h : chatHandler llmE llmG env org body =
      (ChatResponse.badRequest
        "API key is required. Please enter your Anthropic API key in settings.", []) := by
    simp [chatHandler, hm, hk']
  exact ⟨h, by rw [h]; rfl⟩

theorem chat_missing_apiKey_witness :
    jsTruthy (ChatBody.mk (some "where is the memory leak") none none).message = true ∧
    chatHandler okExtract okGenerate failEnv "brandnewbox"
        ⟨some "where is the memory leak", none, none⟩ =
      (ChatResponse.badRequest
        "API key is required. Please enter your Anthropic API key in settings.", []) :=
  ⟨by decide,
   (chat_missing_apiKey okExtract okGenerate failEnv "brandnewbox"
     ⟨some "where is the memory leak", none, none⟩ (by decide) rfl).1⟩

/-- C8: the orchestration run on an empty keyword list yields the empty
bundle with all-zero summary and an empty trace of search-client
calls. -/
theorem orchestrate_empty_keywords :
    ∀ (env : GhEnv) (org : String),
      orchestrateT env org [] = ((⟨[], [], [], []⟩, ⟨0, 0, 0, 0⟩), []) := by
  intro env org
  rfl

/-- C9, counterexample: when every `gh` invocation fails, `GET
/api/repos` responds 200 with an empty repo list and the organization
name — not 500 with `Failed to list repositories` as the claim
states. -/
theorem repos_failure_not_500 :
    reposRoute failEnv "brandnewbox" = ReposResponse.ok [] "brandnewbox" ∧
    reposRoute failEnv "brandnewbox" ≠
      ReposResponse.serverError "Failed to list repositories" := by
  exact ⟨rfl, by decide⟩

/-- C9, amended: `GET /api/repos` always responds with `{repos, org}`;
a failing `gh` invocation is absorbed by `listRepos` into the empty
list, so the route's 500 branch is unreachable from a repo-listing
failure. -/
theorem repos_route_fail_soft :
    ∀ (env : GhEnv) (org : String),
      reposRoute env org = ReposResponse.ok (listRepos env org) org ∧
      ((env (repoListCmd org)).failsSoft = true → listRepos env org = []) := by
  intro env org
  exact ⟨rfl, fun h => orEmpty_of_failsSoft _ h⟩

theorem repos_route_fail_soft_witness :
    (failEnv (repoListCmd "brandnewbox")).failsSoft = true ∧
    reposRoute failEnv "brandnewbox" =
      ReposResponse.ok (listRepos failEnv "brandnewbox") "brandnewbox" ∧
    listRepos failEnv "brandnewbox" = [] :=
  ⟨rfl, (repos_route_fail_soft failEnv "brandnewbox").1,
   (repos_route_fail_soft failEnv "brandnewbox").2 rfl⟩

/-- C10: calling `deduplicateByUrl` on the array at reference `r` of a
store leaves every existing array cell unchanged (in particular the
input array still holds the same records in the same order), and the
result lives at a freshly allocated reference distinct from `r`. -/
theorem dedupe_no_mutation :
    ∀ (σ : Store) (r : Nat), r < σ.length →
      (∀ i, i < σ.length → (dedupeCall σ r).1.getD i [] = σ.getD i []) ∧
      (dedupeCall σ r).2 ≠ r ∧
      (dedupeCall σ r).1.getD (dedupeCall σ r).2 [] =
        deduplicateByUrl (σ.getD r []) := by
  intro σ r hr
  refine ⟨?_, ?_, ?_⟩
  · intro i hi
    simp only [dedupeCall, List.getD_eq_getElem?_getD]
    rw [List.getElem?_append_left hi]
  · exact fun h => absurd hr (by rw [← h, dedupeCall]; exact Nat.lt_irrefl _)
  · simp only [dedupeCall, List.getD_eq_getElem?_getD]
    rw [List.getElem?_concat_length]
    rfl

theorem dedupe_no_mutation_witness :
    (0 < ([[recA, recA]] : Store).length) ∧
    (dedupeCall [[recA, recA]] 0).1.getD 0 [] = [recA, recA] ∧
    (dedupeCall [[recA, recA]] 0).2 ≠ 0 ∧
    (dedupeCall [[recA, recA]] 0).1.getD (dedupeCall [[recA, recA]] 0).2 [] =
      deduplicateByUrl [recA, recA] := by
  have h := dedupe_no_mutation [[recA, recA]] 0 (by decide)
  exact ⟨by decide, h.1 0 (by decide), h.2.1, h.2.2⟩

end GithubAgent
